import Mathlib

/-!
Shallow embedding of the matchlog mobile client's date/statistics engine
(`src/lib/matchlog.ts`, `src/unnamed/part_000`, `src/unnamed/part_001`,
`src/lib/api.ts`, `src/app/(tabs)/index.tsx`, `src/unnamed/part_003`).

Modelling conventions:
* A JavaScript `Date` value is represented by its timestamp in milliseconds
  since the Unix epoch (`Millis := Int`); an *invalid* `Date` (`NaN` time
  value) is represented by `Option.none` at parse boundaries.
* The device's local timezone is a parameter `tz : Int`, the offset from UTC
  in minutes (local wall clock = UTC instant + `tz` minutes).  JavaScript's
  local-calendar accessors (`getFullYear`, `getMonth`, `getDate`, `getDay`,
  `setHours(0,0,0,0)`) are modelled through this offset.
* JavaScript string comparison (`>=` on `YYYY-MM-DD` keys) is code-unit
  lexicographic; on these ASCII strings it coincides with Lean's `String`
  linear order.
* `Date.parse` is modelled for the ISO forms the code composes
  (`YYYY-MM-DD`, `YYYY-MM-DDTHH:MM[:SS[.mmm]][Z]`); strings outside these
  forms yield an invalid date (`none`), as V8 does for them.
-/

/-- Milliseconds since the Unix epoch (UTC). -/
abbrev Millis := Int

def msPerMinute : Int := 60000

def msPerDay : Int := 86400000

/-- Civil-calendar day number (days since 1970-01-01) from year/month/day,
    proleptic Gregorian (Howard Hinnant's `days_from_civil`). -/
def daysFromCivil (y m d : Int) : Int :=
  let y' := if m ≤ 2 then y - 1 else y
  let era := y'.fdiv 400
  let yoe := y' - era * 400
  let mp := (m + 9).emod 12
  let doy := (153 * mp + 2).fdiv 5 + d - 1
  let doe := yoe * 365 + yoe.fdiv 4 - yoe.fdiv 100 + doy
  era * 146097 + doe - 719468

/-- Year/month/day from a civil day number (Hinnant's `civil_from_days`). -/
def civilFromDays (z : Int) : Int × Int × Int :=
  let z' := z + 719468
  let era := z'.fdiv 146097
  let doe := z' - era * 146097
  let yoe := (doe - doe.fdiv 1460 + doe.fdiv 36524 - doe.fdiv 146096).fdiv 365
  let y := yoe + era * 400
  let doy := doe - (365 * yoe + yoe.fdiv 4 - yoe.fdiv 100)
  let mp := (5 * doy + 2).fdiv 153
  let d := doy - (153 * mp + 2).fdiv 5 + 1
  let m := mp + (if mp < 10 then 3 else -9)
  (if m ≤ 2 then y + 1 else y, m, d)

def isLeapYear (y : Int) : Bool :=
  (y.emod 4 = 0 ∧ y.emod 100 ≠ 0) ∨ y.emod 400 = 0

def daysInMonth (y m : Int) : Int :=
  if m = 2 then (if isLeapYear y then 29 else 28)
  else if m = 4 ∨ m = 6 ∨ m = 9 ∨ m = 11 then 30
  else 31

/-- JavaScript `Date.prototype.getDay` weekday (0 = Sunday) of a civil day
    number; 1970-01-01 was a Thursday (4). -/
def weekdayOfDays (days : Int) : Int :=
  (days + 4).emod 7

/-- The local civil day number containing UTC instant `t` under offset `tz`
    (minutes). -/
def localDays (tz : Int) (t : Millis) : Int :=
  (t + tz * msPerMinute).fdiv msPerDay

/-- Two-digit zero padding, as `` `${n}`.padStart(2, '0') ``. -/
def pad2 (n : Int) : String :=
  if 0 ≤ n ∧ n < 10 then "0" ++ toString n else toString n

/-- Source `formatDate(date)` (matchlog.ts line 169): local year, padded
    month and day, joined by dashes.  Here applied to a civil day triple. -/
def ymdToString (y m d : Int) : String :=
  toString y ++ "-" ++ pad2 m ++ "-" ++ pad2 d

/-- `formatDate` applied to the `Date` holding instant `t`, under local
    offset `tz`. -/
def formatDateL (tz : Int) (t : Millis) : String :=
  let c := civilFromDays (localDays tz t)
  ymdToString c.1 c.2.1 c.2.2

/-- Source `startOfWeek(date)` (matchlog.ts line 176): Monday-anchored,
    truncated to local midnight.  The returned `Date` is only ever passed to
    `formatDate`, so it is represented by its local civil day number. -/
def startOfWeekDays (tz : Int) (t : Millis) : Int :=
  let day := weekdayOfDays (localDays tz t)
  localDays tz t - (day + 6).emod 7

/-- `formatDate(startOfWeek(now))` as computed in `computeStats` /
    `computeInsights` / `updateStatsForToggle`. -/
def weekStartKey (tz : Int) (t : Millis) : String :=
  let c := civilFromDays (startOfWeekDays tz t)
  ymdToString c.1 c.2.1 c.2.2

/-- `formatDate(new Date(now.getFullYear(), now.getMonth(), 1))`: the first
    day of the local month containing `now`. -/
def monthStartKey (tz : Int) (t : Millis) : String :=
  let c := civilFromDays (localDays tz t)
  ymdToString c.1 c.2.1 1

/-- `Date.prototype.toISOString`: UTC fields, `YYYY-MM-DDTHH:MM:SS.mmmZ`. -/
def toIsoString (t : Millis) : String :=
  let days := t.fdiv msPerDay
  let rem := t - days * msPerDay
  let c := civilFromDays days
  let ms := rem.emod 1000
  let s := (rem.fdiv 1000).emod 60
  let mi := (rem.fdiv 60000).emod 60
  let h := rem.fdiv 3600000
  ymdToString c.1 c.2.1 c.2.2 ++ "T" ++ pad2 h ++ ":" ++ pad2 mi ++ ":" ++ pad2 s
    ++ "." ++ (if ms < 10 then "00" else if ms < 100 then "0" else "") ++ toString ms ++ "Z"

/-! ### A model of `Date.parse` on the ISO strings the code composes -/

def digitVal (c : Char) : Option Int :=
  if '0' ≤ c ∧ c ≤ '9' then some ((c.toNat : Int) - 48) else none

def twoDigits : List Char → Option (Int × List Char)
  | c₁ :: c₂ :: rest => do
    let d₁ ← digitVal c₁
    let d₂ ← digitVal c₂
    pure (d₁ * 10 + d₂, rest)
  | _ => none

def fourDigits : List Char → Option (Int × List Char)
  | c₁ :: c₂ :: c₃ :: c₄ :: rest => do
    let d₁ ← digitVal c₁
    let d₂ ← digitVal c₂
    let d₃ ← digitVal c₃
    let d₄ ← digitVal c₄
    pure (((d₁ * 10 + d₂) * 10 + d₃) * 10 + d₄, rest)
  | _ => none

def expectChar (c : Char) : List Char → Option (List Char)
  | c' :: rest => if c' = c then some rest else none
  | [] => none

/-- Parse `YYYY-MM-DD`, validating month and day-of-month ranges as the ISO
    `Date.parse` path does. -/
def parseYmd (cs : List Char) : Option (Int × Int × Int × List Char) := do
  let (y, cs) ← fourDigits cs
  let cs ← expectChar '-' cs
  let (m, cs) ← twoDigits cs
  let cs ← expectChar '-' cs
  let (d, cs) ← twoDigits cs
  if 1 ≤ m ∧ m ≤ 12 ∧ 1 ≤ d ∧ d ≤ daysInMonth y m then pure (y, m, d, cs) else none

/-- Parse an optional fractional-seconds part `.d`, `.dd` or `.ddd`,
    returning milliseconds. -/
def parseFrac : List Char → Option (Int × List Char)
  | '.' :: c₁ :: c₂ :: c₃ :: rest =>
    match digitVal c₁, digitVal c₂, digitVal c₃ with
    | some d₁, some d₂, some d₃ => some (d₁ * 100 + d₂ * 10 + d₃, rest)
    | some d₁, some d₂, none => some (d₁ * 100 + d₂ * 10, c₃ :: rest)
    | some d₁, none, _ => some (d₁ * 100, c₂ :: c₃ :: rest)
    | none, _, _ => none
  | '.' :: c₁ :: c₂ :: rest =>
    match digitVal c₁, digitVal c₂ with
    | some d₁, some d₂ => some (d₁ * 100 + d₂ * 10, rest)
    | some d₁, none => some (d₁ * 100, c₂ :: rest)
    | none, _ => none
  | '.' :: c₁ :: rest =>
    match digitVal c₁ with
    | some d₁ => some (d₁ * 100, rest)
    | none => none
  | cs => some (0, cs)

/-- Parse `HH:MM`, `HH:MM:SS` or `HH:MM:SS.mmm` into milliseconds past
    midnight; hour 24 is allowed only as exactly `24:00[:00[.000]]`. -/
def parseTimeOfDay (cs : List Char) : Option (Int × List Char) := do
  let (h, cs) ← twoDigits cs
  let cs ← expectChar ':' cs
  let (mi, cs) ← twoDigits cs
  let (s, ms, cs) ←
    match expectChar ':' cs with
    | some cs' => do
      let (s, cs') ← twoDigits cs'
      let (ms, cs') ← parseFrac cs'
      pure (s, ms, cs')
    | none => pure ((0 : Int), (0 : Int), cs)
  if h ≤ 23 ∧ mi ≤ 59 ∧ s ≤ 59 then
    pure (h * 3600000 + mi * 60000 + s * 1000 + ms, cs)
  else if h = 24 ∧ mi = 0 ∧ s = 0 ∧ ms = 0 then
    pure (24 * 3600000, cs)
  else none

/-- Model of `new Date(s)` for the string shapes composed by the code:
    a date-only `YYYY-MM-DD` is interpreted as UTC midnight; a combined
    `YYYY-MM-DDTHH:MM[:SS[.mmm]]` is local unless suffixed with `Z`.
    Anything else is an invalid date (`none`). -/
def jsDateParse (tz : Int) (s : String) : Option Millis := do
  let cs := s.toList
  let (y, m, d, cs) ← parseYmd cs
  let base := daysFromCivil y m d * msPerDay
  match cs with
  | [] => pure base
  | 'T' :: cs => do
    let (ofDay, cs) ← parseTimeOfDay cs
    match cs with
    | [] => pure (base + ofDay - tz * msPerMinute)
    | ['Z'] => pure (base + ofDay)
    | _ => none
  | _ => none

/-! ### Data model (src/lib/matchlog.ts) -/

/-- A JavaScript number as it occurs in score fields: `Number(s)` may yield
    an integer, a finite non-integral value, or `NaN`.  (Hexadecimal,
    exponent and `Infinity` literal forms are not modelled; upstream scores
    are decimal integer strings.) -/
inductive JsNumber
  | nan
  | int (n : Int)
  | nonintegral
deriving DecidableEq, Repr

def digitsVal (ds : List Int) : Int :=
  ds.foldl (fun a d => a * 10 + d) 0

def isJsSpace (c : Char) : Bool :=
  c = ' ' ∨ c = '\t' ∨ c = '\n' ∨ c = '\r'

/-- JavaScript string trimming as `Number` applies it. -/
def trimChars (cs : List Char) : List Char :=
  ((cs.dropWhile isJsSpace).reverse.dropWhile isJsSpace).reverse

def takeDigits : List Char → List Int × List Char
  | c :: rest =>
    match digitVal c with
    | some d => let (ds, r) := takeDigits rest; (d :: ds, r)
    | none => ([], c :: rest)
  | [] => ([], [])

/-- Model of JavaScript `Number(s)` on decimal strings: empty/whitespace is
    `0`, optionally signed decimal digits (with an optional fraction) are
    numeric, anything else is `NaN`. -/
def jsNumberOfString (s : String) : JsNumber :=
  let cs := trimChars s.toList
  if cs.isEmpty then .int 0
  else
    let sign : Int := match cs with | '-' :: _ => -1 | _ => 1
    let cs := match cs with | '-' :: r => r | '+' :: r => r | _ => cs
    let (ip, cs) := takeDigits cs
    match cs with
    | [] => if ip.isEmpty then .nan else .int (sign * digitsVal ip)
    | '.' :: cs₂ =>
      let (fp, cs₃) := takeDigits cs₂
      if ¬ cs₃.isEmpty then .nan
      else if ip.isEmpty ∧ fp.isEmpty then .nan
      else if fp.all (· = 0) then .int (sign * digitsVal ip)
      else .nonintegral
    | _ => .nan

structure Stats where
  weekCount : Int
  monthCount : Int
  totalCount : Int
deriving DecidableEq, Repr

structure EventItem where
  eventId : String
  leagueId : String
  leagueName : String
  date : String
  time : String
  homeTeam : String
  awayTeam : String
  homeScore : Option JsNumber
  awayScore : Option JsNumber
deriving DecidableEq, Repr

structure LeagueGroup where
  id : String
  name : String
  events : List EventItem
deriving DecidableEq, Repr

structure WatchedEvent extends EventItem where
  createdAt : String
deriving DecidableEq, Repr

structure LeagueConfig where
  id : String
  name : String
  query : String
deriving DecidableEq, Repr

structure CacheEntry where
  expiresAt : Int
  data : List LeagueGroup
deriving DecidableEq, Repr

def cacheTtlMs : Int := 5 * 60 * 1000

def FEATURED_LEAGUES : List LeagueConfig :=
  [⟨"4328", "English Premier League", "English Premier League"⟩,
   ⟨"4335", "Spanish La Liga", "Spanish La Liga"⟩,
   ⟨"4332", "Italian Serie A", "Italian Serie A"⟩,
   ⟨"4331", "German Bundesliga", "German Bundesliga"⟩,
   ⟨"4334", "French Ligue 1", "French Ligue 1"⟩,
   ⟨"4339", "Turkish Super Lig", "Turkish Super Lig"⟩,
   ⟨"4480", "UEFA Champions League", "UEFA Champions League"⟩]

/-- Raw upstream record (`SportsDbEvent`).  The TypeScript declaration types
    `idLeague`/`strLeague` as `string`, but the normalizer defends against
    runtime nulls with `||`/`??`, so they are modelled as `Option String`. -/
structure SportsDbEvent where
  idEvent : String
  idLeague : Option String
  strLeague : Option String
  strEvent : Option String
  strHomeTeam : Option String
  strAwayTeam : Option String
  intHomeScore : Option String
  intAwayScore : Option String
  dateEvent : Option String
  strTime : Option String
deriving DecidableEq, Repr

/-- Source `normalizeEvent` (matchlog.ts lines 97-112).  Falsiness of
    `idEvent`/`dateEvent` covers both `null` and the empty string; `||` on
    `idLeague` also falls through on `""`, while `??` on `strLeague` falls
    through only on `null`. -/
def normalizeEvent (event : SportsDbEvent) (league : LeagueConfig) : Option EventItem :=
  if event.idEvent = "" ∨ event.dateEvent = none ∨ event.dateEvent = some "" then none
  else some
    { eventId := event.idEvent
      leagueId :=
        match event.idLeague with
        | none => league.id
        | some s => if s = "" then league.id else s
      leagueName := event.strLeague.getD league.name
      date := event.dateEvent.getD ""
      time := event.strTime.getD ""
      homeTeam := event.strHomeTeam.getD "TBD"
      awayTeam := event.strAwayTeam.getD "TBD"
      homeScore :=
        match event.intHomeScore with
        | none => none
        | some s => some (jsNumberOfString s)
      awayScore :=
        match event.intAwayScore with
        | none => none
        | some s => some (jsNumberOfString s) }

/-! ### The local date key and the stats/insights engine -/

/-- Code-unit lexicographic `a <= b`, JavaScript's string comparison.  (On
    the ASCII date keys involved this coincides with any UTF-16/UTF-32
    ordering.)  Defined over character lists so that proofs and witnesses
    can evaluate it by kernel reduction. -/
def listLeB : List Char → List Char → Bool
  | [], _ => true
  | _ :: _, [] => false
  | a :: as, b :: bs =>
    if a.toNat < b.toNat then true
    else if b.toNat < a.toNat then false
    else listLeB as bs

/-- JavaScript `a <= b` on strings (so `x >= y` is `jsStrLe y x`). -/
def jsStrLe (a b : String) : Bool :=
  listLeB a.toList b.toList

/-- Source `localDateKey(date, time, createdAt)` (matchlog.ts lines
    370-391).  `null` string arguments are represented by `""`, which the
    source treats identically (both are falsy and the strings are only used
    under truthiness guards). -/
def localDateKey (tz : Int) (date time createdAt : String) : Option String :=
  if date = "" then
    match jsDateParse tz createdAt with
    | some p => some (formatDateL tz p)
    | none => none
  else
    match (if date.toList.contains 'T' then jsDateParse tz date else none) with
    | some p => some (formatDateL tz p)
    | none =>
      match (if time = "" then none else jsDateParse tz (date ++ "T" ++ time ++ "Z")) with
      | some p => some (formatDateL tz p)
      | none => some (String.mk (date.toList.take 10))

/-- One iteration of the `events.forEach` loop in `computeStats`:
    `if (!dayKey) return;` skips null and empty keys, then each counter is
    bumped when `dayKey >= bound` (JS string comparison). -/
def statsStep (tz : Int) (weekStart monthStart : String) (acc : Int × Int)
    (event : WatchedEvent) : Int × Int :=
  match localDateKey tz event.date event.time event.createdAt with
  | none => acc
  | some dayKey =>
    if dayKey = "" then acc
    else ((if jsStrLe weekStart dayKey then acc.1 + 1 else acc.1),
          (if jsStrLe monthStart dayKey then acc.2 + 1 else acc.2))

/-- Source `computeStats(events, now)` (matchlog.ts lines 260-284). -/
def computeStats (tz : Int) (now : Millis) (events : List WatchedEvent) : Stats :=
  let weekStart := weekStartKey tz now
  let monthStart := monthStartKey tz now
  let wm := events.foldl (statsStep tz weekStart monthStart) (0, 0)
  { weekCount := wm.1, monthCount := wm.2, totalCount := (events.length : Int) }

/-- Source `toggleWatchedEvent(events, event)` (matchlog.ts lines 246-258);
    `now` models the `new Date().toISOString()` call for `createdAt`. -/
def toggleWatchedEvent (events : List WatchedEvent) (event : EventItem) (now : Millis) :
    List WatchedEvent :=
  let exists_ := events.any (fun item => item.eventId == event.eventId)
  if exists_ then events.filter (fun item => item.eventId != event.eventId)
  else events ++ [{ toEventItem := event, createdAt := toIsoString now }]

/-- Source `updateStatsForToggle(stats, event, isWatched)` (part_001 lines
    226-238): buckets by the *raw* `event.date` string. -/
def updateStatsForToggle (tz : Int) (now : Millis) (stats : Stats) (event : EventItem)
    (isWatched : Bool) : Stats :=
  let delta : Int := if isWatched then -1 else 1
  let weekStart := weekStartKey tz now
  let monthStart := monthStartKey tz now
  let isWeek := jsStrLe weekStart event.date
  let isMonth := jsStrLe monthStart event.date
  { weekCount := stats.weekCount + (if isWeek then delta else 0),
    monthCount := stats.monthCount + (if isMonth then delta else 0),
    totalCount := stats.totalCount + delta }

/-- Insertion-ordered `Map.set(k, (get(k) ?? 0) + 1)`: increments in place,
    appends new keys at the end. -/
def bumpCount : List (String × Nat) → String → List (String × Nat)
  | [], k => [(k, 1)]
  | (k', v) :: rest, k =>
    if k' = k then (k', v + 1) :: rest else (k', v) :: bumpCount rest k

/-- Source `pickTop(map)` inside `computeInsights`: strict-max scan in
    insertion order, `'—'` on an empty table. -/
def pickTop (m : List (String × Nat)) : String :=
  (m.foldl (fun best kv => if kv.2 > best.2 then kv else best) ("—", 0)).1

structure InsAcc where
  teamCounts : List (String × Nat)
  leagueCounts : List (String × Nat)
  dayCounts : List (String × Nat)
  weekCount : Int
  monthCount : Int

/-- One iteration of the `events.forEach` loop in `computeInsights`:
    `[homeTeam, awayTeam].filter(Boolean)` drops empty names; the day key is
    counted (and bucketed) only when truthy. -/
def insightsStep (tz : Int) (weekStart monthStart : String) (acc : InsAcc)
    (event : WatchedEvent) : InsAcc :=
  let teams := [event.homeTeam, event.awayTeam].filter (fun t => t ≠ "")
  let teamCounts := teams.foldl bumpCount acc.teamCounts
  let leagueCounts := bumpCount acc.leagueCounts event.leagueName
  let dayKey := localDateKey tz event.date event.time event.createdAt
  let dayCounts :=
    match dayKey with
    | some k => if k = "" then acc.dayCounts else bumpCount acc.dayCounts k
    | none => acc.dayCounts
  let weekCount := acc.weekCount +
    (match dayKey with
     | some k => if k ≠ "" ∧ jsStrLe weekStart k then 1 else 0
     | none => 0)
  let monthCount := acc.monthCount +
    (match dayKey with
     | some k => if k ≠ "" ∧ jsStrLe monthStart k then 1 else 0
     | none => 0)
  { teamCounts := teamCounts, leagueCounts := leagueCounts, dayCounts := dayCounts,
    weekCount := weekCount, monthCount := monthCount }

structure Insights where
  topTeam : String
  topLeague : String
  topWeekday : String
  weekCount : Int
  monthCount : Int
  totalCount : Int
deriving DecidableEq, Repr

/-- Source `computeInsights(events)` (matchlog.ts lines 303-368).  `now`
    models the internal `new Date()`; `fmtBusiest` models the opaque
    `Intl.DateTimeFormat` rendering of the busiest day key. -/
def computeInsights (tz : Int) (now : Millis) (fmtBusiest : String → String)
    (events : List WatchedEvent) : Insights :=
  if events.length = 0 then
    { topTeam := "—", topLeague := "—", topWeekday := "—",
      weekCount := 0, monthCount := 0, totalCount := 0 }
  else
    let weekStart := weekStartKey tz now
    let monthStart := monthStartKey tz now
    let acc := events.foldl (insightsStep tz weekStart monthStart)
      { teamCounts := [], leagueCounts := [], dayCounts := [], weekCount := 0, monthCount := 0 }
    let busiestDayKey := pickTop acc.dayCounts
    let busiestDay := if busiestDayKey = "—" then "—" else fmtBusiest busiestDayKey
    { topTeam := pickTop acc.teamCounts
      topLeague := pickTop acc.leagueCounts
      topWeekday := busiestDay
      weekCount := acc.weekCount
      monthCount := acc.monthCount
      totalCount := (events.length : Int) }

/-! ### Match status (src/unnamed/part_000) -/

inductive MatchStatus
  | past
  | soon
  | future
deriving DecidableEq, Repr

def hasInfixB (p : List Char) : List Char → Bool
  | [] => p.isEmpty
  | c :: rest => p.isPrefixOf (c :: rest) || hasInfixB p rest

/-- JavaScript `s.includes(pat)`. -/
def strIncludes (s pat : String) : Bool :=
  hasInfixB pat.toList s.toList

/-- Source `getMatchStatus(date, time)` (part_000 lines 35-51).  The
    source's `minutesUntil = (start - now) / 60000` comparisons
    `minutesUntil < 0` and `minutesUntil <= 30` are expressed on
    milliseconds; dividing by the positive constant preserves both. -/
def getMatchStatus (tz : Int) (now : Millis) (date : String) (time : Option String) :
    MatchStatus :=
  match time with
  | none => .future
  | some t =>
    if t = "" then .future
    else if strIncludes t "TBD" then .future
    else
      match jsDateParse tz (date ++ "T" ++ t ++ "Z") with
      | none => .future
      | some startMs =>
        if startMs - now < 0 then .past
        else if startMs - now ≤ 30 * msPerMinute then .soon
        else .future

/-! ### Persistent storage (src/lib/matchlog.ts `loadWatchedEvents`) -/

/-- A parsed JSON value, the possible results of `JSON.parse`. -/
inductive JsonVal
  | null
  | bool (b : Bool)
  | num (n : Int)
  | str (s : String)
  | arr (xs : List JsonVal)
  | obj (fields : List (String × JsonVal))

/-- Source `loadWatchedEvents()` (matchlog.ts lines 226-240).  `stored`
    models `AsyncStorage.getItem(STORAGE_KEY)`; `parse` models the platform
    `JSON.parse`, with `none` standing for a thrown `SyntaxError` (absorbed
    by the `try`/`catch`).  `if (!stored)` also catches a stored empty
    string; the TypeScript cast `as WatchedEvent[]` performs no validation,
    so a stored JSON array is returned as-is. -/
def loadWatchedEvents (parse : String → Option JsonVal) (stored : Option String) :
    List JsonVal :=
  match stored with
  | none => []
  | some s =>
    if s = "" then []
    else
      match parse s with
      | none => []
      | some (.arr xs) => xs
      | some _ => []

/-! ### The per-day fetch and its client cache (matchlog.ts lines 128-154) -/

def alistGet {α : Type} : List (String × α) → String → Option α
  | [], _ => none
  | (k, v) :: rest, key => if k = key then some v else alistGet rest key

/-- `Map.set`: overwrites in place, appends new keys at the end. -/
def alistSet {α : Type} : List (String × α) → String → α → List (String × α)
  | [], key, v => [(key, v)]
  | (k, w) :: rest, key, v =>
    if k = key then (k, v) :: rest else (k, w) :: alistSet rest key v

/-- One iteration of the `eventsByLeague.flat().forEach` grouping loop. -/
def groupStep (m : List (String × List EventItem)) (event : EventItem) :
    List (String × List EventItem) :=
  let m := if (alistGet m event.leagueId).isNone then alistSet m event.leagueId [] else m
  alistSet m event.leagueId ((alistGet m event.leagueId).getD [] ++ [event])

/-- The merge performed after all league fetches resolve: group the
    flattened events by `leagueId`, then emit one group per configured
    league in configured order. -/
def mergeLeagues (eventsByLeague : List (List EventItem)) : List LeagueGroup :=
  let grouped := eventsByLeague.flatten.foldl groupStep []
  FEATURED_LEAGUES.map fun league =>
    { id := league.id, name := league.name, events := (alistGet grouped league.id).getD [] }

/-- Source `fetchEventsByDate(date)` (matchlog.ts lines 128-154).
    `fetchLeague` models the per-league network results
    (`fetchLeagueEvents(date, league)` after normalization); the returned
    triple is (result, updated cache, leagues actually fetched from the
    network).  The `await`s are modelled as instantaneous, so the
    `Date.now()` of the freshness check and of the stored `expiresAt` are
    the same `now`. -/
def fetchEventsByDate (fetchLeague : LeagueConfig → List EventItem)
    (cache : List (String × CacheEntry)) (now : Millis) (date : String) :
    List LeagueGroup × List (String × CacheEntry) × List LeagueConfig :=
  let fresh := mergeLeagues (FEATURED_LEAGUES.map fetchLeague)
  match alistGet cache date with
  | some cached =>
    if cached.expiresAt > now then (cached.data, cache, [])
    else (fresh, alistSet cache date ⟨now + cacheTtlMs, fresh⟩, FEATURED_LEAGUES)
  | none => (fresh, alistSet cache date ⟨now + cacheTtlMs, fresh⟩, FEATURED_LEAGUES)

/-! ### Backend requests (src/lib/api.ts) -/

inductive ApiError
  | authError
  | genericError (msg : String)
deriving DecidableEq, Repr

structure HttpResponse where
  status : Int
  bodyText : String
  bodyJson : JsonVal

/-- `Response.ok`: status in the 2xx range. -/
def responseOk (r : HttpResponse) : Bool :=
  200 ≤ r.status ∧ r.status < 300

/-- Source `requestJson(path, options, includeAuth)` (api.ts lines 30-60).
    `token` models `getSessionToken()`; `resp` models the response the
    `fetch` would produce.  `if (!token)` is falsy on both `null` and `""`;
    the generic branch falls back to `Request failed: <status>` when the
    error body is empty (`errorText || ...`). -/
def requestJson (includeAuth : Bool) (token : Option String) (resp : HttpResponse) :
    Except ApiError JsonVal :=
  if includeAuth ∧ (token = none ∨ token = some "") then .error .authError
  else if resp.status = 401 then .error .authError
  else if ¬ responseOk resp then
    .error (.genericError
      (if resp.bodyText = "" then "Request failed: " ++ toString resp.status else resp.bodyText))
  else .ok resp.bodyJson

/-! ### The watched-toggle state machine (src/app/(tabs)/index.tsx) -/

/-- JS `Set.add` on a duplicate-free list representation. -/
def setAdd (xs : List String) (x : String) : List String :=
  if xs.contains x then xs else xs ++ [x]

/-- JS `Set.delete`. -/
def setDel (xs : List String) (x : String) : List String :=
  xs.filter (fun y => y != x)

structure ToggleMutation where
  eventId : String
  isRemove : Bool
deriving DecidableEq, Repr

/-- The screen state a toggle request interacts with: the optimistic
    `watchedIds` set, the `pendingIds` markers, and a log of the network
    mutations (`addWatchedEvent`/`removeWatchedEvent`) issued so far. -/
structure ToggleUiState where
  watchedIds : List String
  pendingIds : List String
  issued : List ToggleMutation
deriving DecidableEq, Repr

/-- The synchronous prefix of `toggleWatched(event)` (index.tsx lines
    298-315): compute the target state, apply the optimistic update, mark
    the id pending and issue the corresponding mutation. -/
def startToggleWatched (s : ToggleUiState) (e : EventItem) : ToggleUiState :=
  let isWatched := s.watchedIds.contains e.eventId
  let nextWatched :=
    if isWatched then setDel s.watchedIds e.eventId else setAdd s.watchedIds e.eventId
  { watchedIds := nextWatched
    pendingIds := setAdd s.pendingIds e.eventId
    issued := s.issued ++ [⟨e.eventId, isWatched⟩] }

/-- A toggle *request* as the UI issues it: the event card is rendered with
    `disabled={pendingIds.has(event.eventId)}` (index.tsx line 692, part_003
    line 457), so a press while that id is pending never reaches
    `toggleWatched` and is dropped. -/
def requestToggleWatched (s : ToggleUiState) (e : EventItem) : ToggleUiState :=
  if s.pendingIds.contains e.eventId then s else startToggleWatched s e

/-- Backend-synced league group (part_001 `LeagueGroup`, with a badge). -/
structure LeagueGroupB where
  id : String
  name : String
  badge : String
  events : List EventItem
deriving DecidableEq, Repr

/-- part_001 `EventsResponse`: the envelope cached per date by the home
    screen. -/
structure EventsResponse where
  leagues : List LeagueGroupB
  watchedIds : List String
  notifiedIds : List String
  stats : Stats
deriving DecidableEq, Repr

/-- The home-screen state touched by `toggleWatched` and
    `handleAuthError` (index.tsx). -/
structure HomeState where
  sessionToken : Option String
  leagues : List LeagueGroupB
  watchedIds : List String
  notifiedIds : List String
  pendingIds : List String
  errorMsg : Option String
  cache : List (String × EventsResponse)
deriving DecidableEq, Repr

/-- Source `handleAuthError` (index.tsx lines 223-230): clears the session
    token, the displayed leagues and the watched/notified sets, and shows
    the sign-in message.  The date-keyed `cache` state is not touched. -/
def handleAuthError (s : HomeState) : HomeState :=
  { s with sessionToken := none, leagues := [], watchedIds := [], notifiedIds := [],
           errorMsg := some "Sign in to see your fixtures." }

/-- A full run of `toggleWatched(event)` (index.tsx lines 298-336) under a
    given outcome of the network mutation: optimistic update and pending
    marker, then the success / auth-failure / generic-failure continuation,
    then the `finally` clearing of the pending marker (which runs even after
    the `return` inside the auth branch). -/
def toggleWatchedRun (s : HomeState) (selectedDate : String) (e : EventItem)
    (outcome : Except ApiError Unit) : HomeState :=
  let isWatched := s.watchedIds.contains e.eventId
  let prevWatchedIds := s.watchedIds
  let nextWatchedIds :=
    if isWatched then setDel prevWatchedIds e.eventId else setAdd prevWatchedIds e.eventId
  let s := { s with watchedIds := nextWatchedIds, pendingIds := setAdd s.pendingIds e.eventId }
  let s :=
    match outcome with
    | .ok _ =>
      let s := { s with errorMsg := none }
      match alistGet s.cache selectedDate with
      | some cached =>
        { s with cache := alistSet s.cache selectedDate { cached with watchedIds := nextWatchedIds } }
      | none => s
    | .error .authError => handleAuthError s
    | .error (.genericError msg) =>
      { s with watchedIds := prevWatchedIds, errorMsg := some msg }
  { s with pendingIds := setDel s.pendingIds e.eventId }

/-! ### Concrete sample inputs used by witnesses and counterexamples -/

/-- 2026-02-01T12:00:00Z; with `tz = 60` the local day is Sunday
    2026-02-01, so the local week starts 2026-01-26 and the month
    2026-02-01. -/
def sampleNow : Millis := daysFromCivil 2026 2 1 * msPerDay + 43200000

/-- An event dated 2026-01-31 kicking off 23:30 UTC: in a UTC+60min zone its
    local date key is 2026-02-01, one month bucket later than its raw
    `date`. -/
def boundaryEvent : EventItem :=
  ⟨"e1", "4328", "English Premier League", "2026-01-31", "23:30:00", "A", "B", none, none⟩

/-- An in-window event with no kickoff time. -/
def plainEvent : EventItem :=
  ⟨"1", "4328", "English Premier League", "2026-02-01", "", "A", "B", none, none⟩

/-- A watched entry sharing `plainEvent`'s id but dated a year earlier. -/
def staleWatched : WatchedEvent :=
  { toEventItem := ⟨"1", "4328", "English Premier League", "2025-01-01", "", "A", "B", none, none⟩,
    createdAt := "2025-01-01T00:00:00.000Z" }

/-- An upstream record whose `intHomeScore` is a non-numeric string. -/
def rawNonNumericScore : SportsDbEvent :=
  ⟨"id1", some "4328", some "English Premier League", none, some "H", some "A",
   some "abc", some "2", some "2026-02-01", some "15:00:00"⟩

def sampleLeague : LeagueConfig := ⟨"4328", "English Premier League", "English Premier League"⟩

/-- A home-screen state holding one cached per-date response with a
    non-empty watched set. -/
def sampleHome : HomeState :=
  { sessionToken := some "tok"
    leagues := []
    watchedIds := ["1"]
    notifiedIds := []
    pendingIds := []
    errorMsg := none
    cache := [("2026-02-01", ⟨[], ["1"], [], ⟨1, 1, 1⟩⟩)] }

/-- A toggle-screen state with a toggle pending for id `"1"`. -/
def samplePendingUi : ToggleUiState :=
  { watchedIds := ["1"], pendingIds := ["1"], issued := [⟨"1", false⟩] }

/-! ### Helper lemmas: the stats folds count a per-event bucket predicate -/

/-- Whether an event lands on/after `bound`: its local date key exists, is
    truthy, and compares `≥ bound`. -/
def bucketHit (tz : Int) (bound : String) (e : WatchedEvent) : Bool :=
  match localDateKey tz e.date e.time e.createdAt with
  | none => false
  | some k => if k = "" then false else jsStrLe bound k

theorem statsStep_eq (tz : Int) (ws ms : String) (acc : Int × Int) (e : WatchedEvent) :
    statsStep tz ws ms acc e =
      (acc.1 + (if bucketHit tz ws e then 1 else 0),
       acc.2 + (if bucketHit tz ms e then 1 else 0)) := by
  unfold statsStep bucketHit
  cases h : localDateKey tz e.date e.time e.createdAt with
  | none => simp
  | some k =>
    by_cases hk : k = ""
    · simp [hk]
    · by_cases hw : jsStrLe ws k = true <;> by_cases hm : jsStrLe ms k = true <;>
        simp [hk, hw, hm]

theorem foldl_statsStep (tz : Int) (ws ms : String) (es : List WatchedEvent) (acc : Int × Int) :
    es.foldl (statsStep tz ws ms) acc =
      (acc.1 + (es.countP (bucketHit tz ws) : Int),
       acc.2 + (es.countP (bucketHit tz ms) : Int)) := by
  induction es generalizing acc with
  | nil => simp
  | cons e es ih =>
    rw [List.foldl_cons, ih, statsStep_eq]
    by_cases hw : bucketHit tz ws e <;> by_cases hm : bucketHit tz ms e <;>
      simp [hw, hm, List.countP_cons] <;> omega

theorem computeStats_eq_countP (tz : Int) (now : Millis) (es : List WatchedEvent) :
    computeStats tz now es =
      { weekCount := (es.countP (bucketHit tz (weekStartKey tz now)) : Int),
        monthCount := (es.countP (bucketHit tz (monthStartKey tz now)) : Int),
        totalCount := (es.length : Int) } := by
  simp [computeStats, foldl_statsStep]

theorem insightsStep_week (tz : Int) (ws ms : String) (acc : InsAcc) (e : WatchedEvent) :
    (insightsStep tz ws ms acc e).weekCount =
      acc.weekCount + (if bucketHit tz ws e then 1 else 0) := by
  unfold insightsStep bucketHit
  cases h : localDateKey tz e.date e.time e.createdAt with
  | none => simp
  | some k =>
    by_cases hk : k = ""
    · simp [hk]
    · by_cases hw : jsStrLe ws k = true <;> simp [hk, hw]

theorem insightsStep_month (tz : Int) (ws ms : String) (acc : InsAcc) (e : WatchedEvent) :
    (insightsStep tz ws ms acc e).monthCount =
      acc.monthCount + (if bucketHit tz ms e then 1 else 0) := by
  unfold insightsStep bucketHit
  cases h : localDateKey tz e.date e.time e.createdAt with
  | none => simp
  | some k =>
    by_cases hk : k = ""
    · simp [hk]
    · by_cases hm : jsStrLe ms k = true <;> simp [hk, hm]

theorem foldl_insightsStep_counts (tz : Int) (ws ms : String) (es : List WatchedEvent)
    (acc : InsAcc) :
    (es.foldl (insightsStep tz ws ms) acc).weekCount =
        acc.weekCount + (es.countP (bucketHit tz ws) : Int) ∧
    (es.foldl (insightsStep tz ws ms) acc).monthCount =
        acc.monthCount + (es.countP (bucketHit tz ms) : Int) := by
  induction es generalizing acc with
  | nil => simp
  | cons e es ih =>
    rw [List.foldl_cons]
    rcases ih (insightsStep tz ws ms acc e) with ⟨ihw, ihm⟩
    rw [ihw, ihm, insightsStep_week, insightsStep_month]
    by_cases hw : bucketHit tz ws e <;> by_cases hm : bucketHit tz ms e <;>
      simp [hw, hm, List.countP_cons] <;> omega

/-- C4: for every watched-event list, evaluated at the same instant (and in
    the same timezone), `computeInsights` returns the same `weekCount`,
    `monthCount` and `totalCount` as `computeStats`: both bucket every event
    through the identical `localDateKey` fallback chain. -/
theorem computeInsights_agrees_computeStats (tz : Int) (now : Millis)
    (fmt : String → String) (es : List WatchedEvent) :
    (computeInsights tz now fmt es).weekCount = (computeStats tz now es).weekCount ∧
    (computeInsights tz now fmt es).monthCount = (computeStats tz now es).monthCount ∧
    (computeInsights tz now fmt es).totalCount = (computeStats tz now es).totalCount := by
  rcases foldl_insightsStep_counts tz (weekStartKey tz now) (monthStartKey tz now) es
    { teamCounts := [], leagueCounts := [], dayCounts := [], weekCount := 0, monthCount := 0 }
    with ⟨hw, hm⟩
  by_cases hlen : es.length = 0
  · have hnil : es = [] := List.length_eq_zero.mp hlen
    subst hnil
    simp [computeInsights, computeStats_eq_countP]
  · rw [computeStats_eq_countP]
    simp [computeInsights, hlen, hw, hm]

/-- C8: `getMatchStatus` returns `future` when the time is null/empty,
    contains the TBD sentinel, or the composed instant is unparseable;
    otherwise `past` for a negative time-to-kickoff, `soon` for a
    time-to-kickoff between 0 and 30 minutes inclusive (30 minutes =
    1800000 ms), and `future` beyond that. -/
theorem getMatchStatus_spec (tz : Int) (now : Int) (date : String) (time : Option String) :
    ((time = none ∨ time = some "") → getMatchStatus tz now date time = .future) ∧
    (∀ t, time = some t → strIncludes t "TBD" = true →
      getMatchStatus tz now date time = .future) ∧
    (∀ t, time = some t → t ≠ "" → strIncludes t "TBD" = false →
      jsDateParse tz (date ++ "T" ++ t ++ "Z") = none →
      getMatchStatus tz now date time = .future) ∧
    (∀ (t : String) (startMs : Int), time = some t → t ≠ "" → strIncludes t "TBD" = false →
      jsDateParse tz (date ++ "T" ++ t ++ "Z") = some startMs →
      ((startMs - now < 0 → getMatchStatus tz now date time = .past) ∧
       (0 ≤ startMs - now → startMs - now ≤ 30 * msPerMinute →
         getMatchStatus tz now date time = .soon) ∧
       (30 * msPerMinute < startMs - now → getMatchStatus tz now date time = .future))) := by
  refine ⟨?_, ?_, ?_, ?_⟩
  · rintro (rfl | rfl) <;> simp [getMatchStatus]
  · rintro t rfl htbd
    by_cases ht : t = "" <;> simp [getMatchStatus, ht, htbd]
  · rintro t rfl ht htbd hparse
    simp [getMatchStatus, ht, htbd, hparse]
  · rintro t startMs rfl ht htbd hparse
    refine ⟨?_, ?_, ?_⟩
    · intro hneg
      simp [getMatchStatus, ht, htbd, hparse, hneg]
    · intro hge hle
      have h1 : ¬ startMs - now < 0 := by omega
      simp [getMatchStatus, ht, htbd, hparse, h1, hle]
    · intro hgt
      have h1 : ¬ startMs - now < 0 := by
        simp only [msPerMinute] at hgt
        omega
      have h2 : ¬ startMs - now ≤ 30 * msPerMinute := by
        simp only [msPerMinute] at hgt ⊢
        omega
      simp [getMatchStatus, ht, htbd, hparse, h1, h2]

/-- Witness for C8 at concrete inputs: kickoff exactly 30 minutes after
    `now = 0` is `soon`. -/
theorem getMatchStatus_spec_witness :
    getMatchStatus 0 0 "1970-01-01" (some "00:30:00") = .soon := by
  have h := (getMatchStatus_spec 0 0 "1970-01-01" (some "00:30:00")).2.2.2
    "00:30:00" 1800000 rfl (by decide) (by decide) (by decide)
  exact h.2.1 (by decide) (by decide)

/-- C2 (failing input): `normalizeEvent` accepts `rawNonNumericScore` (id
    and date present) but copies `Number("abc") = NaN` into `homeScore`
    instead of treating the non-numeric upstream score as null — the
    returned event carries a NaN score.  (The null and numeric cases do
    behave as claimed: `awayScore` parses `"2"` to 2.) -/
theorem normalizeEvent_propagates_nan :
    ∃ ev, normalizeEvent rawNonNumericScore sampleLeague = some ev ∧
      ev.homeScore = some JsNumber.nan ∧ ev.awayScore = some (JsNumber.int 2) := by
  refine ⟨_, rfl, ?_, ?_⟩ <;> decide

/-- C10: `loadWatchedEvents` is total and absorbs every failure mode:
    a missing key, a stored empty string, an unparseable stored string
    (`parse` models `JSON.parse`, `none` standing for a thrown error) and a
    parsed non-array all yield `[]`, while a stored (non-empty) JSON array
    is returned exactly. -/
theorem loadWatchedEvents_spec (parse : String → Option JsonVal) (stored : Option String) :
    (stored = none → loadWatchedEvents parse stored = []) ∧
    (stored = some "" → loadWatchedEvents parse stored = []) ∧
    (∀ s, stored = some s → parse s = none → loadWatchedEvents parse stored = []) ∧
    (∀ s j, stored = some s → parse s = some j → (∀ xs, j ≠ JsonVal.arr xs) →
      loadWatchedEvents parse stored = []) ∧
    (∀ s xs, stored = some s → s ≠ "" → parse s = some (JsonVal.arr xs) →
      loadWatchedEvents parse stored = xs) := by
  refine ⟨?_, ?_, ?_, ?_, ?_⟩
  · rintro rfl
    rfl
  · rintro rfl
    rfl
  · rintro s rfl hp
    by_cases hs : s = ""
    · simp [loadWatchedEvents, hs]
    · simp [loadWatchedEvents, hs, hp]
  · rintro s j rfl hp hj
    by_cases hs : s = ""
    · simp [loadWatchedEvents, hs]
    · cases j with
      | arr xs => exact absurd rfl (hj xs)
      | null => simp [loadWatchedEvents, hs, hp]
      | bool b => simp [loadWatchedEvents, hs, hp]
      | num n => simp [loadWatchedEvents, hs, hp]
      | str s' => simp [loadWatchedEvents, hs, hp]
      | obj fs => simp [loadWatchedEvents, hs, hp]
  · rintro s xs rfl hs hp
    simp [loadWatchedEvents, hs, hp]

/-- Witness for C10: with storage holding the JSON array `[null]`, the
    parsed array is returned exactly. -/
theorem loadWatchedEvents_spec_witness :
    loadWatchedEvents (fun _ => some (JsonVal.arr [JsonVal.null])) (some "[null]") =
      [JsonVal.null] :=
  (loadWatchedEvents_spec (fun _ => some (JsonVal.arr [JsonVal.null]))
    (some "[null]")).2.2.2.2 "[null]" [JsonVal.null] rfl (by decide) rfl

/-- C3: while a toggle for an event id is pending, a further toggle request
    for that id is dropped by the `disabled={isPending}` gate — the state
    (including the log of issued mutations) is unchanged — while a request
    for an id that is not pending always proceeds and issues exactly its
    one mutation. -/
theorem requestToggleWatched_pending_guard (s : ToggleUiState) (e : EventItem) :
    (s.pendingIds.contains e.eventId = true → requestToggleWatched s e = s) ∧
    (s.pendingIds.contains e.eventId = false →
      (requestToggleWatched s e).issued =
        s.issued ++ [⟨e.eventId, s.watchedIds.contains e.eventId⟩]) := by
  constructor
  · intro h
    have h' : e.eventId ∈ s.pendingIds := by simpa using h
    simp [requestToggleWatched, h']
  · intro h
    have h' : e.eventId ∉ s.pendingIds := by simpa using h
    simp [requestToggleWatched, h', startToggleWatched]

/-- Witness for C3: in `samplePendingUi` (id `"1"` pending after one issued
    mutation) a second press on id `"1"` changes nothing, while a press on
    id `"2"` issues exactly one further mutation. -/
theorem requestToggleWatched_pending_guard_witness :
    requestToggleWatched samplePendingUi
        ⟨"1", "4328", "EPL", "2026-02-01", "", "A", "B", none, none⟩ = samplePendingUi ∧
    (requestToggleWatched samplePendingUi
        ⟨"2", "4328", "EPL", "2026-02-01", "", "A", "B", none, none⟩).issued =
      [⟨"1", false⟩, ⟨"2", false⟩] := by
  constructor
  · exact (requestToggleWatched_pending_guard samplePendingUi _).1 (by decide)
  · exact (requestToggleWatched_pending_guard samplePendingUi _).2 (by decide)

theorem alistGet_alistSet {α : Type} (l : List (String × α)) (k : String) (v : α) :
    alistGet (alistSet l k v) k = some v := by
  induction l with
  | nil => simp [alistSet, alistGet]
  | cons p rest ih =>
    by_cases h : p.1 = k
    · simp [alistSet, alistGet, h]
    · simp [alistSet, alistGet, h, ih]

/-- C6: `fetchEventsByDate` returns a cached entry's data without touching
    the network while the entry is strictly fresh (`expiresAt > now`);
    otherwise it fetches every configured league, returns the merged
    league groups, and unconditionally overwrites the cache entry for that
    date with expiry `now + 5` minutes. -/
theorem fetchEventsByDate_cache_spec (fetchLeague : LeagueConfig → List EventItem)
    (cache : List (String × CacheEntry)) (now : Int) (date : String) :
    (∀ entry, alistGet cache date = some entry → entry.expiresAt > now →
      fetchEventsByDate fetchLeague cache now date = (entry.data, cache, [])) ∧
    ((∀ entry, alistGet cache date = some entry → entry.expiresAt ≤ now) →
      fetchEventsByDate fetchLeague cache now date =
        (mergeLeagues (FEATURED_LEAGUES.map fetchLeague),
         alistSet cache date
           ⟨now + cacheTtlMs, mergeLeagues (FEATURED_LEAGUES.map fetchLeague)⟩,
         FEATURED_LEAGUES) ∧
      alistGet (fetchEventsByDate fetchLeague cache now date).2.1 date =
        some ⟨now + cacheTtlMs, mergeLeagues (FEATURED_LEAGUES.map fetchLeague)⟩) := by
  constructor
  · intro entry hget hfresh
    simp [fetchEventsByDate, hget, hfresh]
  · intro hstale
    cases hget : alistGet cache date with
    | none => simp [fetchEventsByDate, hget, alistGet_alistSet]
    | some entry =>
      have hle : entry.expiresAt ≤ now := hstale entry hget
      have hnot : ¬ entry.expiresAt > now := not_lt.mpr hle
      simp [fetchEventsByDate, hget, hnot, alistGet_alistSet]

/-- Witness for C6: a fresh cached entry for the queried date is served
    as-is with no network requests. -/
theorem fetchEventsByDate_cache_spec_witness :
    fetchEventsByDate (fun _ => []) [("2026-02-01", ⟨10, []⟩)] 5 "2026-02-01" =
      ([], [("2026-02-01", ⟨10, []⟩)], []) :=
  (fetchEventsByDate_cache_spec (fun _ => []) [("2026-02-01", ⟨10, []⟩)] 5
    "2026-02-01").1 ⟨10, []⟩ (by decide) (by decide)

/-- C7 (amended): every request that sees HTTP 401, and every
    auth-including request issued with no stored session token, fails with
    the dedicated `AuthError` kind, which is distinct from the generic
    failure kind; and a toggle failing with that kind clears the local
    watched/notified sets, the displayed leagues and the session token
    (forcing re-authentication instead of a simple rollback). -/
theorem requestJson_authError_spec :
    (∀ (includeAuth : Bool) (token : Option String) (resp : HttpResponse),
      resp.status = 401 → requestJson includeAuth token resp = .error .authError) ∧
    (∀ resp : HttpResponse, requestJson true none resp = .error .authError) ∧
    (∀ msg, ApiError.authError ≠ ApiError.genericError msg) ∧
    (∀ (s : HomeState) (d : String) (e : EventItem),
      (toggleWatchedRun s d e (.error .authError)).watchedIds = [] ∧
      (toggleWatchedRun s d e (.error .authError)).notifiedIds = [] ∧
      (toggleWatchedRun s d e (.error .authError)).leagues = [] ∧
      (toggleWatchedRun s d e (.error .authError)).sessionToken = none) := by
  refine ⟨?_, ?_, ?_, ?_⟩
  · intro includeAuth token resp h401
    by_cases hauth : includeAuth ∧ (token = none ∨ token = some "")
    · simp [requestJson, hauth]
    · simp [requestJson, hauth, h401]
  · intro resp
    simp [requestJson]
  · intro msg
    exact fun h => ApiError.noConfusion h
  · intro s d e
    refine ⟨?_, ?_, ?_, ?_⟩ <;> simp [toggleWatchedRun, handleAuthError, setDel]

/-- Witness for C7's amended theorem: a concrete 401 response fails with
    `AuthError`. -/
theorem requestJson_authError_spec_witness :
    requestJson true (some "tok") ⟨401, "", JsonVal.null⟩ = .error .authError :=
  requestJson_authError_spec.1 true (some "tok") ⟨401, "", JsonVal.null⟩ rfl

/-- C7 counterexample: after a toggle fails with the auth kind, the
    date-keyed response cache — which stores the auth-scoped `watchedIds`
    per date — is *not* cleared: `handleAuthError` never touches the
    `cache` state, so the claim that auth-scoped cached data are cleared
    fails on `sampleHome`. -/
theorem toggleWatched_auth_cache_retained :
    (toggleWatchedRun sampleHome "2026-02-01" plainEvent (.error .authError)).cache =
      sampleHome.cache ∧ sampleHome.cache ≠ [] := by
  constructor
  · rfl
  · decide

/-- C9: on a list with pairwise-distinct event ids, `toggleWatchedEvent`
    preserves distinctness and negates membership of the toggled id: if
    present, exactly the entries with that id are removed (others unchanged
    in order); if absent, exactly one new entry with that id is appended at
    the end. -/
theorem toggleWatchedEvent_unique (es : List WatchedEvent) (e : EventItem) (now : Int)
    (h : es.Pairwise (fun a b => a.eventId ≠ b.eventId)) :
    (toggleWatchedEvent es e now).Pairwise (fun a b => a.eventId ≠ b.eventId) ∧
    ((∃ w ∈ es, w.eventId = e.eventId) →
      toggleWatchedEvent es e now = es.filter (fun w => w.eventId != e.eventId)) ∧
    ((¬ ∃ w ∈ es, w.eventId = e.eventId) →
      toggleWatchedEvent es e now =
        es ++ [{ toEventItem := e, createdAt := toIsoString now }]) := by
  have hany : (es.any fun item => item.eventId == e.eventId) = true ↔
      ∃ w ∈ es, w.eventId = e.eventId := by
    simp [List.any_eq_true]
  by_cases hex : ∃ w ∈ es, w.eventId = e.eventId
  · have ha : (es.any fun item => item.eventId == e.eventId) = true := hany.mpr hex
    have heq : toggleWatchedEvent es e now = es.filter (fun w => w.eventId != e.eventId) := by
      simp [toggleWatchedEvent, ha]
    refine ⟨?_, fun _ => heq, fun hne => absurd hex hne⟩
    rw [heq]
    exact List.Pairwise.sublist (List.filter_sublist es) h
  · have ha : (es.any fun item => item.eventId == e.eventId) = false :=
      Bool.eq_false_iff.mpr fun hc => hex (hany.mp hc)
    have heq : toggleWatchedEvent es e now =
        es ++ [{ toEventItem := e, createdAt := toIsoString now }] := by
      simp [toggleWatchedEvent, ha]
    refine ⟨?_, fun hpres => absurd hpres hex, fun _ => heq⟩
    rw [heq]
    refine List.pairwise_append.mpr ⟨h, List.pairwise_singleton _ _, ?_⟩
    intro a ha' b hb
    have hb' : b = { toEventItem := e, createdAt := toIsoString now } := by
      simpa using hb
    subst hb'
    exact fun heq' => hex ⟨a, ha', heq'⟩

/-- Witness for C9: toggling into an empty list appends exactly the one new
    entry and keeps ids pairwise distinct. -/
theorem toggleWatchedEvent_unique_witness :
    (toggleWatchedEvent [] plainEvent 0).Pairwise (fun a b => a.eventId ≠ b.eventId) ∧
    toggleWatchedEvent [] plainEvent 0 =
      [{ toEventItem := plainEvent, createdAt := toIsoString 0 }] := by
  have h := toggleWatchedEvent_unique [] plainEvent 0 List.Pairwise.nil
  exact ⟨h.1, h.2.2 (by simp)⟩

/-- C1 counterexample: with `tz = +60` minutes and `now = sampleNow`
    (2026-02-01T12:00:00Z, local month window starting "2026-02-01"),
    toggling on `boundaryEvent` (raw date "2026-01-31", kickoff 23:30 UTC,
    local date key "2026-02-01") from the empty collection gives
    incremental stats `{1, 0, 1}` but a full recompute gives `{1, 1, 1}`:
    the O(1) update buckets by the raw date and misses the month window. -/
theorem updateStatsForToggle_cex :
    updateStatsForToggle 60 sampleNow (computeStats 60 sampleNow []) boundaryEvent false ≠
      computeStats 60 sampleNow
        [{ toEventItem := boundaryEvent, createdAt := toIsoString sampleNow }] := by
  decide

theorem localDateKey_createdAt_irrel (tz : Int) (d t c₁ c₂ : String) (hd : d ≠ "") :
    localDateKey tz d t c₁ = localDateKey tz d t c₂ := by
  simp [localDateKey, hd]

theorem bucketHit_of_key_eq_date (tz : Int) (bound : String) (e : EventItem) (c : String)
    (hdate : e.date ≠ "") (hkey : localDateKey tz e.date e.time c = some e.date) :
    bucketHit tz bound { toEventItem := e, createdAt := c } = jsStrLe bound e.date := by
  unfold bucketHit
  simp only [hkey, hdate, if_false]

/-- C1 (amended): the incremental `updateStatsForToggle` agrees with a full
    `computeStats` recompute at the same instant *provided* the toggled
    event's effective local date key equals its raw `date` string (and the
    date is non-empty): adding the event to any collection, or removing the
    corresponding entry from it, changes the recomputed stats by exactly
    the increment the O(1) update applies.  (Without that proviso the two
    diverge — see the counterexample.) -/
theorem updateStatsForToggle_recompute (tz : Int) (now : Int) (es : List WatchedEvent)
    (e : EventItem) (c : String)
    (hdate : e.date ≠ "")
    (hkey : localDateKey tz e.date e.time c = some e.date) :
    (updateStatsForToggle tz now (computeStats tz now es) e false =
      computeStats tz now (es ++ [{ toEventItem := e, createdAt := c }])) ∧
    (∀ es₁ es₂, es = es₁ ++ { toEventItem := e, createdAt := c } :: es₂ →
      updateStatsForToggle tz now (computeStats tz now es) e true =
        computeStats tz now (es₁ ++ es₂)) := by
  have hbw := bucketHit_of_key_eq_date tz (weekStartKey tz now) e c hdate hkey
  have hbm := bucketHit_of_key_eq_date tz (monthStartKey tz now) e c hdate hkey
  constructor
  · rw [computeStats_eq_countP, computeStats_eq_countP]
    by_cases hw : jsStrLe (weekStartKey tz now) e.date = true <;>
      by_cases hm : jsStrLe (monthStartKey tz now) e.date = true <;>
        simp [updateStatsForToggle, List.countP_append, List.countP_cons, hbw, hbm, hw, hm]
  · rintro es₁ es₂ rfl
    rw [computeStats_eq_countP, computeStats_eq_countP]
    by_cases hw : jsStrLe (weekStartKey tz now) e.date = true <;>
      by_cases hm : jsStrLe (monthStartKey tz now) e.date = true <;>
        simp [updateStatsForToggle, List.countP_append, List.countP_cons, hbw, hbm, hw, hm] <;>
          omega

/-- Witness for C1's amended theorem: an event dated "2026-02-01" with no
    kickoff time keys to its own date, and the incremental add matches the
    recompute on the empty collection. -/
theorem updateStatsForToggle_recompute_witness :
    updateStatsForToggle 0 sampleNow (computeStats 0 sampleNow []) plainEvent false =
      computeStats 0 sampleNow [{ toEventItem := plainEvent, createdAt := "x" }] :=
  (updateStatsForToggle_recompute 0 sampleNow [] plainEvent "x" (by decide) (by decide)).1

/-- C5 counterexample: the watched list holds an entry with id "1" dated
    2025-01-01; double-toggling an event with the same id but dated
    2026-02-01 (inside the current month window at `sampleNow`) replaces
    the entry's dates, so the recomputed stats change from `{0, 0, 1}` to
    `{1, 1, 1}` even though the id membership is restored. -/
theorem toggleWatchedEvent_twice_cex :
    computeStats 0 sampleNow
        (toggleWatchedEvent (toggleWatchedEvent [staleWatched] plainEvent sampleNow)
          plainEvent sampleNow) ≠
      computeStats 0 sampleNow [staleWatched] := by
  decide

theorem bucketHit_congr (tz : Int) (bound : String) (w w' : WatchedEvent)
    (hd : w.date = w'.date) (ht : w.time = w'.time) (hne : w'.date ≠ "") :
    bucketHit tz bound w = bucketHit tz bound w' := by
  unfold bucketHit
  rw [hd, ht, localDateKey_createdAt_irrel tz w'.date w'.time w.createdAt w'.createdAt hne]

/-- C5 (amended): double-toggling the same event restores the list's
    eventId membership unconditionally; and it restores `computeStats`
    exactly *provided* the list holds at most one entry with the event's id,
    any such entry carries the same `date` and `time` as the toggled event,
    and the event's date is non-empty (so the bucketing never falls back to
    the differing `createdAt`).  Without those provisos the stats can change
    — see the counterexample. -/
theorem toggleWatchedEvent_twice_restores (es : List WatchedEvent) (e : EventItem)
    (n₁ n₂ : Int) (tz : Int) (now : Int) :
    (∀ id, (∃ w ∈ toggleWatchedEvent (toggleWatchedEvent es e n₁) e n₂, w.eventId = id) ↔
      (∃ w ∈ es, w.eventId = id)) ∧
    ((es.filter (fun w => w.eventId == e.eventId)).length ≤ 1 →
      (∀ w ∈ es, w.eventId = e.eventId → w.date = e.date ∧ w.time = e.time) →
      e.date ≠ "" →
      computeStats tz now (toggleWatchedEvent (toggleWatchedEvent es e n₁) e n₂) =
        computeStats tz now es) := by
  have hany : ∀ l : List WatchedEvent,
      ((l.any fun item => item.eventId == e.eventId) = true ↔
        ∃ w ∈ l, w.eventId = e.eventId) := by
    intro l
    simp [List.any_eq_true]
  by_cases hex : ∃ w ∈ es, w.eventId = e.eventId
  · -- the id is present: first toggle filters it out, second appends anew
    have ha : (es.any fun item => item.eventId == e.eventId) = true := (hany es).mpr hex
    have h1 : toggleWatchedEvent es e n₁ = es.filter (fun w => w.eventId != e.eventId) := by
      simp [toggleWatchedEvent, ha]
    have ha2 : ((es.filter (fun w => w.eventId != e.eventId)).any
        fun item => item.eventId == e.eventId) = false := by
      refine Bool.eq_false_iff.mpr fun hc => ?_
      obtain ⟨w, hw, hbeq⟩ := List.any_eq_true.mp hc
      obtain ⟨-, hq⟩ := List.mem_filter.mp hw
      rw [bne_iff_ne] at hq
      exact hq (by simpa using hbeq)
    have h2 : toggleWatchedEvent (toggleWatchedEvent es e n₁) e n₂ =
        es.filter (fun w => w.eventId != e.eventId) ++
          [{ toEventItem := e, createdAt := toIsoString n₂ }] := by
      rw [h1]
      simp [toggleWatchedEvent, ha2]
    rw [h2]
    obtain ⟨w, hwmem, hwid⟩ := hex
    constructor
    · -- membership is restored with no side conditions
      intro id
      constructor
      · rintro ⟨v, hv, rfl⟩
        rcases List.mem_append.mp hv with hvf | hvw
        · exact ⟨v, (List.mem_filter.mp hvf).1, rfl⟩
        · have hv2 : v = { toEventItem := e, createdAt := toIsoString n₂ } :=
            List.mem_singleton.mp hvw
          subst hv2
          exact ⟨w, hwmem, hwid⟩
      · rintro ⟨v, hv, rfl⟩
        by_cases hvid : v.eventId = e.eventId
        · exact ⟨{ toEventItem := e, createdAt := toIsoString n₂ },
            List.mem_append.mpr (Or.inr (by simp)), hvid.symm⟩
        · exact ⟨v, List.mem_append.mpr
            (Or.inl (List.mem_filter.mpr ⟨hv, bne_iff_ne.mpr hvid⟩)), rfl⟩
    · -- stats: the removed entry and the re-added entry hit the same buckets
      intro huniq hmatch hdate
      -- the matching entries form exactly [w]
      have hwf : w ∈ es.filter (fun w => w.eventId == e.eventId) :=
        List.mem_filter.mpr ⟨hwmem, by simp [hwid]⟩
      have hlen1 : (es.filter (fun w => w.eventId == e.eventId)).length = 1 := by
        have : 0 < (es.filter (fun w => w.eventId == e.eventId)).length :=
          List.length_pos.mpr (List.ne_nil_of_mem hwf)
        omega
      obtain ⟨a, hfa⟩ := List.length_eq_one.mp hlen1
      have haw : a = w := by
        have hw' := hwf
        rw [hfa] at hw'
        exact (List.mem_singleton.mp hw').symm
      subst haw
      have hperm := List.filter_append_perm (fun w => w.eventId != e.eventId) es
      have hneg : (fun w : WatchedEvent => !(w.eventId != e.eventId)) =
          (fun w : WatchedEvent => w.eventId == e.eventId) := by
        funext w
        simp [bne]
      rw [hneg, hfa] at hperm
      obtain ⟨hwd, hwt⟩ := hmatch a hwmem hwid
      have hcongr : ∀ bound, bucketHit tz bound a =
          bucketHit tz bound { toEventItem := e, createdAt := toIsoString n₂ } := by
        intro bound
        exact bucketHit_congr tz bound a _ hwd hwt hdate
      rw [computeStats_eq_countP, computeStats_eq_countP]
      have hcw := (hperm.countP_eq (bucketHit tz (weekStartKey tz now))).symm
      have hcm := (hperm.countP_eq (bucketHit tz (monthStartKey tz now))).symm
      have hll := hperm.length_eq.symm
      have hba := hcongr (weekStartKey tz now)
      have hbb := hcongr (monthStartKey tz now)
      simp only [List.countP_append, List.countP_cons, List.countP_nil,
        List.length_append, List.length_cons, List.length_nil, hba, hbb,
        Stats.mk.injEq] at hcw hcm hll ⊢
      by_cases hbw : bucketHit tz (weekStartKey tz now)
          { toEventItem := e, createdAt := toIsoString n₂ } = true <;>
        by_cases hbm : bucketHit tz (monthStartKey tz now)
            { toEventItem := e, createdAt := toIsoString n₂ } = true <;>
          simp only [hbw, hbm, if_true, if_false] at hcw hcm ⊢ <;>
          refine ⟨?_, ?_, ?_⟩ <;> omega
  · -- the id is absent: first toggle appends, second removes exactly it
    have ha : (es.any fun item => item.eventId == e.eventId) = false :=
      Bool.eq_false_iff.mpr fun hc => hex ((hany es).mp hc)
    have h1 : toggleWatchedEvent es e n₁ =
        es ++ [{ toEventItem := e, createdAt := toIsoString n₁ }] := by
      simp [toggleWatchedEvent, ha]
    have ha2 : ((es ++ [({ toEventItem := e, createdAt := toIsoString n₁ } : WatchedEvent)]).any
        fun item => item.eventId == e.eventId) = true := by
      simp
    have hfes : es.filter (fun w => w.eventId != e.eventId) = es :=
      List.filter_eq_self.mpr fun w hw => bne_iff_ne.mpr fun heq => hex ⟨w, hw, heq⟩
    have h2 : toggleWatchedEvent (toggleWatchedEvent es e n₁) e n₂ = es := by
      rw [h1]
      simp only [toggleWatchedEvent, ha2, if_true, List.filter_append, hfes]
      simp
    rw [h2]
    exact ⟨fun _ => Iff.rfl, fun _ _ _ => rfl⟩

/-- Witness for C5's amended theorem: double-toggling `plainEvent` on the
    empty list restores both the eventId membership and the stats. -/
theorem toggleWatchedEvent_twice_restores_witness :
    ((∃ w ∈ toggleWatchedEvent (toggleWatchedEvent [] plainEvent 0) plainEvent 1,
        w.eventId = "1") ↔ (∃ w ∈ ([] : List WatchedEvent), w.eventId = "1")) ∧
    computeStats 0 sampleNow (toggleWatchedEvent (toggleWatchedEvent [] plainEvent 0) plainEvent 1) =
      computeStats 0 sampleNow [] := by
  have h := toggleWatchedEvent_twice_restores [] plainEvent 0 1 0 sampleNow
  exact ⟨h.1 "1", h.2 (by decide) (by intro w hw; cases hw) (by decide)⟩
